import Mathlib

/-!
Verification of the batch compiler of `qiskit/_compiler.py` (plus the pieces of the
gate catalog and `ParameterExpression` that its specification refers to), as a shallow
embedding in Lean 4.

Conventions of the embedding:
* Python exceptions become `Except Err`; the constructors of `Err` carry exactly the
  data that the corresponding Python format string interpolates.
* In-place mutation of the caller's circuits (`circuit.data.insert(...)`) is made
  explicit: `compile` returns the final state of its input circuit list next to the
  qobj.
* Components of the repository that are imported by `_compiler.py` but whose code is
  not part of the source tree here (the unroller, the mapper passes, the backend
  registry) are modelled from the specification; each such definition says so in its
  doc comment.
-/

namespace Qiskit

/-- Gate parameters as they appear in the decomposition rules the claims touch:
rational constants and the symbolic constant `pi` (`from qiskit.qasm import pi`). -/
inductive SymParam where
  | const (c : ℚ)
  | pi
deriving DecidableEq, Repr

/-- A qubit or classical bit reference: (register name, index), equality componentwise,
as for qiskit register tuples `("q", 0)`. -/
structure Bit where
  reg : String
  idx : Nat
deriving DecidableEq, Repr

/-- The circuit instructions `_compiler.py` distinguishes (`isinstance` checks on
`Measure`, `Gate`, plus the `Barrier` it inserts; `Measure` and `Barrier` are
`Instruction`s, not `Gate`s). `measure q c` has `arg = [q, c]` with `arg[0] = q`;
a gate's `arg` is its qubit operand list. -/
inductive Inst where
  | measure (q : Bit) (c : Bit)
  | gate (name : String) (params : List SymParam) (args : List Bit)
  | barrier (args : List Bit)
deriving DecidableEq, Repr

/-- A quantum circuit: its name, its quantum registers (name, size) and its ordered
instruction list (`circuit.data`). -/
structure Circuit where
  name : String
  qregs : List (String × Nat)
  data : List Inst
deriving DecidableEq, Repr

/-- `sum(len(qreg) for qreg in circuit.get_qregs().values())` (line 201). -/
def numQubits (c : Circuit) : Nat :=
  (c.qregs.map Prod.snd).sum

/-- The value of a `coupling_map` configuration entry: Python `None`, the
string sentinel `all-to-all`, or an edge list `[[control, target], ...]`. -/
inductive CMap where
  | none
  | allToAll
  | edges (l : List (Nat × Nat))
deriving DecidableEq, Repr

/-- Python truthiness of a `coupling_map` value: `None` and `[]` are falsy, a
nonempty string and a nonempty list are truthy. -/
def CMap.truthy : CMap → Bool
  | .none => false
  | .allToAll => true
  | .edges l => !l.isEmpty

/-- The edge list carried by a `coupling_map` value (empty for the other shapes). -/
def CMap.edgeList : CMap → List (Nat × Nat)
  | .edges l => l
  | _ => []

/-- The errors `compile`/`compile_circuit` can raise (`QISKitError` in the source);
each constructor carries exactly the values interpolated into the Python message.
`gateAfterMeasure` is
`backend {backend} rejects gate after measurement in circuit {circuit.name}`
(lines 217-218); `unknownHpcFormat` is `Unknown HPC parameter format!` (line 177);
`unsupportedGate` stands for the unroller failure the spec calls
`UnsupportedGateError` (no decomposition path into the basis). -/
inductive Err where
  | gateAfterMeasure (backend : String) (circuitName : String)
  | unknownHpcFormat
  | unsupportedGate (name : String)
deriving DecidableEq, Repr

/-- Lines 209-218 of `compile`: walk `circuit.data` with its index, collecting the
measured qubits (`instruction.arg[0]`) and their instruction indices; raise as soon
as a `Gate` instruction touches an already-measured qubit
(`set(instruction.arg) & set(measured_qubits)` nonempty). -/
def measurementScan (backend : String) (circuitName : String) :
    List Inst → Nat → List Bit → List Nat → Except Err (List Bit × List Nat)
  | [], _, measured, idxs => .ok (measured, idxs)
  | .measure q _ :: rest, i, measured, idxs =>
      measurementScan backend circuitName rest (i + 1) (measured ++ [q]) (idxs ++ [i])
  | .gate _ _ args :: rest, i, measured, idxs =>
      if args.any (fun a => measured.contains a) then
        .error (.gateAfterMeasure backend circuitName)
      else
        measurementScan backend circuitName rest (i + 1) measured idxs
  | .barrier _ :: rest, i, measured, idxs =>
      measurementScan backend circuitName rest (i + 1) measured idxs

/-- Python `list.insert(i, a)`: insert `a` before position `i` (appends when `i`
is past the end). -/
def pyInsert (l : List α) (i : Nat) (a : α) : List α :=
  l.take i ++ a :: l.drop i

/-- Lines 219-220 of `compile`:
`for i, qubit in zip(qasm_idx, measured_qubits): circuit.data.insert(i, Barrier([qubit], circuit))`. -/
def insertBarriers (data : List Inst) (idxs : List Nat) (measured : List Bit) : List Inst :=
  (idxs.zip measured).foldl (fun d p => pyInsert d p.1 (.barrier [p.2])) data

/-- The whole non-simulator block of the compile loop (lines 208-220): the
measurement-ordering scan followed by the in-place barrier insertion, returning the
mutated circuit. -/
def barrierBeforeMeasure (backend : String) (c : Circuit) : Except Err Circuit := do
  let (measured, idxs) ← measurementScan backend c.name c.data 0 [] []
  .ok { c with data := insertBarriers c.data idxs measured }

/-- The decomposition rules of the gate catalog, restricted to the gates this
development exercises, each translated from its `_define` in
`src/qiskit/extensions/standard/` (phase angle 0, the default):
* `h`  (h.py lines 47-54):    `gate h a { u2(0,pi) a; }`
* `swap` (swap.py lines 49-59): `gate swap a,b { cx a,b; cx b,a; cx a,b; }`
The local qubit frame `q[0], q[1]` is remapped to the actual operands.
Gates without a rule here (e.g. `cx`, `u1`, `u2`, `u3`, `id`) declare none. -/
def gateDefinition (name : String) : List SymParam → List Bit → Option (List Inst)
  | _, args =>
    if name = "h" then
      some [.gate "u2" [.const 0, .pi] args]
    else if name = "swap" then
      match args with
      | [a, b] => some [.gate "cx" [] [a, b], .gate "cx" [] [b, a], .gate "cx" [] [a, b]]
      | _ => Option.none
    else Option.none

/-- One substitution level of the unroller: every gate outside the basis is
replaced by its declared decomposition (not yet recursively unrolled); the flag
records whether any substitution happened. A non-basis gate with no rule fails
with `unsupportedGate` naming it. Measurements and barriers pass through. -/
def expandOnce (basis : List String) : List Inst → Except Err (List Inst × Bool)
  | [] => .ok ([], false)
  | .measure q c :: rest => do
      let (tl, ch) ← expandOnce basis rest
      .ok (.measure q c :: tl, ch)
  | .barrier args :: rest => do
      let (tl, ch) ← expandOnce basis rest
      .ok (.barrier args :: tl, ch)
  | .gate n p args :: rest =>
      if n ∈ basis then do
        let (tl, ch) ← expandOnce basis rest
        .ok (.gate n p args :: tl, ch)
      else
        match gateDefinition n p args with
        | Option.none => .error (.unsupportedGate n)
        | Option.some body => do
            let (tl, _) ← expandOnce basis rest
            .ok (body ++ tl, true)

/-- The first gate name outside the basis, if any. -/
def firstNonBasis (basis : List String) : List Inst → Option String
  | [] => Option.none
  | .gate n _ _ :: rest =>
      if n ∈ basis then firstNonBasis basis rest else Option.some n
  | _ :: rest => firstNonBasis basis rest

/-- Modelled from the spec (§4.2 Unroller; `qiskit.unroll.DagUnroller` is not under
`src/`): rewrite gates outside the basis by their declared decompositions,
recursively, until only basis operations remain; the recursion is bounded by a
maximum depth, and exhausting it with a non-basis gate still present fails with
`unsupportedGate` naming the unreachable gate. -/
def unrollFuel (basis : List String) : Nat → List Inst → Except Err (List Inst)
  | 0, l =>
      match firstNonBasis basis l with
      | Option.some n => .error (.unsupportedGate n)
      | Option.none => .ok l
  | fuel + 1, l => do
      let (l', changed) ← expandOnce basis l
      if changed then unrollFuel basis fuel l' else .ok l'

/-- The recursion bound of the unroller (spec §4.2: recursion bounded by a maximum
depth). -/
def unrollMaxDepth : Nat := 100

/-- Unroll a whole DAG (wire order = program order in this embedding) to the basis. -/
def unrollDag (basis : List String) (data : List Inst) : Except Err (List Inst) :=
  unrollFuel basis unrollMaxDepth data

/-- A layout, in the list form `compile` serializes (`[[virtual, physical], ...]`). -/
abbrev Layout := List (Bit × Bit)

/-- Two physical qubits are adjacent when the coupling edge list holds an edge in
either direction (spec §3 CouplingGraph). -/
def adjacent (edges : List (Nat × Nat)) (a b : Nat) : Bool :=
  edges.contains (a, b) || edges.contains (b, a)

/-- The qubits a DAG touches, in first-appearance order. -/
def dagQubits (data : List Inst) : List Bit :=
  (data.map fun i =>
    match i with
    | .measure q _ => [q]
    | .gate _ _ args => args
    | .barrier args => args).flatten.dedup

/-- Modelled from the spec (§4.3; `qiskit.mapper.swap_mapper` is not under `src/`):
the router computes a layout and inserts SWAPs so that every two-qubit gate acts on
adjacent physical qubits, over seeded randomized trials. Our model keeps the identity
layout on the circuit qubits (the physical position of a qubit is its register index)
and inserts one `swap` ahead of each two-qubit gate whose operands are not adjacent;
the multi-trial search and the shortest-path SWAP chains are abstracted away — no
claim in this development depends on them, only on whether the router runs at all.
The trial count, seed and initial layout are accepted to mirror the call shape. -/
def swap_mapper (data : List Inst) (edges : List (Nat × Nat))
    (_initial_layout : Option Layout) (_trials _seed : Nat) : List Inst × Layout :=
  (data.flatMap fun i =>
      match i with
      | .gate n p [a, b] =>
          if adjacent edges a.idx b.idx then [Inst.gate n p [a, b]]
          else [Inst.gate "swap" [] [a, b], Inst.gate n p [a, b]]
      | other => [other],
   (dagQubits data).map fun q => (q, q))

/-- Modelled from the spec (§4.4; `qiskit.mapper.direction_mapper` is not under
`src/`): a `cx` whose (control, target) pair is supported only in the reverse
direction is rewritten to the supported direction, conjugated by Hadamards. -/
def direction_mapper (data : List Inst) (edges : List (Nat × Nat)) : List Inst :=
  data.flatMap fun i =>
    match i with
    | .gate "cx" p [a, b] =>
        if edges.contains (a.idx, b.idx) then [Inst.gate "cx" p [a, b]]
        else if edges.contains (b.idx, a.idx) then
          [Inst.gate "h" [] [a], Inst.gate "h" [] [b],
           Inst.gate "cx" p [b, a],
           Inst.gate "h" [] [a], Inst.gate "h" [] [b]]
        else [Inst.gate "cx" p [a, b]]
    | other => [other]

/-- Modelled from the spec (§4.5; `qiskit.mapper.cx_cancellation` is not under
`src/`): adjacent duplicate `cx` gates on the same operand pair cancel (CX is its
own inverse). -/
def cx_cancellation : List Inst → List Inst
  | [] => []
  | [i] => [i]
  | i :: j :: rest =>
      match i, j with
      | .gate "cx" p a, .gate "cx" p' a' =>
          if p = p' ∧ a = a' then cx_cancellation rest
          else i :: cx_cancellation (j :: rest)
      | _, _ => i :: cx_cancellation (j :: rest)

/-- Modelled from the spec (§4.6; `qiskit.mapper.optimize_1q_gates` is not under
`src/`): fuses runs of single-qubit gates. Our model keeps the DAG unchanged — the
claims here only concern whether and when the stage runs, never what it computes. -/
def optimize_1q_gates (data : List Inst) : List Inst :=
  data

/-- The pipeline stages `compile_circuit` can run, recording the trial count and
seed handed to the router. -/
inductive Stage where
  | unroller
  | swapMapper (trials seed : Nat)
  | directionMapper
  | cxCancellation
  | optimize1q
deriving DecidableEq, Repr

/-- Result of `compile_circuit`: the compiled DAG, the final layout
(`None` when the router did not run) and, as instrumentation, the list of pipeline
stages that ran, in order. -/
structure CompiledCircuit where
  dag : List Inst
  layout : Option Layout
  stages : List Stage
deriving DecidableEq, Repr

/-- Helper of `splitComma`: split a character list at commas, `acc` holding the
reversed characters of the current piece. -/
def splitCommaAux : List Char → List Char → List String
  | [], acc => [String.mk acc.reverse]
  | ch :: rest, acc =>
      if ch = ',' then String.mk acc.reverse :: splitCommaAux rest []
      else splitCommaAux rest (ch :: acc)

/-- Python `s.split(',')` (structural implementation, so that concrete instances
evaluate): the pieces of `s` between commas, `[s]` when `s` has no comma, and
`[""]` for the empty string. -/
def splitComma (s : String) : List String :=
  splitCommaAux s.toList []

/-- `basis = basis_gates.split(',') if basis_gates else []` (line 307): `None` and
the empty string are falsy. -/
def basisList : Option String → List String
  | Option.none => []
  | Option.some s => if s = "" then [] else splitComma s

/-- `compile_circuit` (lines 261-347), as `compile` calls it (`format='dag'`,
`get_layout=True`): unroll to the basis; then, only when the coupling map is truthy,
route (`trials=20, seed=13`), unroll again to expand the inserted SWAPs, correct
directions, cancel adjacent CX pairs and fuse single-qubit runs. -/
def compile_circuit (qc : Circuit) (basis_gates : Option String) (coupling_map : CMap)
    (initial_layout : Option Layout) : Except Err CompiledCircuit := do
  let basis := basisList basis_gates
  let dag0 ← unrollDag basis qc.data
  if coupling_map.truthy then
    let edges := coupling_map.edgeList
    let (dag1, lay) := swap_mapper dag0 edges initial_layout 20 13
    let dag2 ← unrollDag basis dag1
    let dag3 := direction_mapper dag2 edges
    let dag4 := cx_cancellation dag3
    let dag5 := optimize_1q_gates dag4
    .ok ⟨dag5, Option.some lay,
         [.unroller, .swapMapper 20 13, .unroller, .directionMapper,
          .cxCancellation, .optimize1q]⟩
  else
    .ok ⟨dag0, Option.none, [.unroller]⟩

/-- Modelled from the spec (§6; `backends.configuration(backend)` is not under
`src/`): the backend capability descriptor
`{basis_gates, coupling_map, simulator : bool}` the driver consults. A backend with
no `basis_gates` entry is `basis_gates = none`. -/
structure BackendConf where
  basis_gates : Option String
  coupling_map : CMap
  simulator : Bool
deriving DecidableEq, Repr

/-- An hpc block. The two fields model the presence/value of the two required keys
(`key in hpc` is `isSome`). -/
structure Hpc where
  multi_shot_optimization : Option Bool
  omp_num_threads : Option Nat
deriving DecidableEq, Repr

/-- The compile configuration (lines 39-50 / 147-157). The free-form per-job
`config` dict is not modelled: `compile` only deep-copies it into each job
unchanged. All fields are present, mirroring `{**compile_config_default, **compile_config}`. -/
structure CompileConfig where
  backend : String
  basis_gates : Option String
  coupling_map : CMap
  initial_layout : Option Layout
  shots : Nat
  max_credits : Nat
  seed : Option Int
  qobj_id : Option String
  hpc : Option Hpc
deriving DecidableEq, Repr

/-- `compile_config_default` (lines 39-50). -/
def compile_config_default : CompileConfig :=
  { backend := "local_qasm_simulator", basis_gates := Option.none,
    coupling_map := .none, initial_layout := Option.none, shots := 1024,
    max_credits := 10, seed := Option.some 1, qobj_id := Option.none,
    hpc := Option.none }

/-- The top-level qobj config `{max_credits, backend, shots, [hpc]}`;
`hpc = none` means the key is absent. -/
structure QobjConfig where
  max_credits : Nat
  backend : String
  shots : Nat
  hpc : Option Hpc
deriving DecidableEq, Repr

/-- A per-circuit job config (lines 234-245). -/
structure JobConfig where
  coupling_map : CMap
  layout : Option Layout
  basis_gates : Option String
  seed : Option Int
deriving DecidableEq, Repr

/-- One job entry of the qobj (lines 228-255). The two serialized circuit forms
(json via `JsonBackend`, qasm text — their serializers are not under `src/`) are
both represented by the compiled DAG itself. -/
structure Job where
  name : String
  config : JobConfig
  compiled_circuit : List Inst
deriving DecidableEq, Repr

/-- The output job description. -/
structure Qobj where
  id : String
  config : QobjConfig
  circuits : List Job
deriving DecidableEq, Repr

/-- Lines 167-185 of `compile`: the hpc block is accepted only for
`ibmqx_hpc_qasm_simulator`; absent there it defaults to
`{multi_shot_optimization: True, omp_num_threads: 16}`; a block missing either key
raises `Unknown HPC parameter format!`; for any other backend a supplied block is
logged and dropped, and the qobj config carries no hpc key. Returns the hpc entry
of the qobj config. -/
def hpcConfig (backend : String) (hpc : Option Hpc) : Except Err (Option Hpc) :=
  if backend = "ibmqx_hpc_qasm_simulator" then
    let h := hpc.getD ⟨Option.some true, Option.some 16⟩
    if h.multi_shot_optimization.isSome ∧ h.omp_num_threads.isSome then
      .ok (Option.some h)
    else
      .error .unknownHpcFormat
  else
    .ok Option.none

/-- Lines 190-197 of `compile`: a falsy `basis_gates` defaults from the backend
descriptor (staying as it was when the descriptor has none); a truthy one that
splits into fewer than two names is the deprecated form, substituted by
`u1,u2,u3,cx,id`. -/
def resolveBasisGates (cfg : Option String) (backendBasis : Option String) :
    Option String :=
  if cfg = Option.none ∨ cfg = Option.some "" then
    match backendBasis with
    | Option.some b => Option.some b
    | Option.none => cfg
  else
    match cfg with
    | Option.some s =>
        if (splitComma s).length < 2 then Option.some "u1,u2,u3,cx,id"
        else Option.some s
    | Option.none => Option.none

/-- Lines 198-199 of `compile`: a falsy `coupling_map` defaults from the backend
descriptor. -/
def resolveCouplingMap (cfg : CMap) (backendCm : CMap) : CMap :=
  if cfg.truthy then cfg else backendCm

/-- Lines 203-206 of the compile loop: the two rebindings of the loop-carried
`coupling_map` variable (note that they mutate the variable shared by all later
iterations). -/
def normalizeCm (c : Circuit) (cm : CMap) : CMap :=
  let cm := if numQubits c = 1 then CMap.none else cm
  if cm = CMap.allToAll then CMap.none else cm

/-- The serialization of the final layout (lines 237-240):
`list_layout = [[k, v] ...] if final_layout else None` — a falsy layout
(Python `None` or an empty dict) becomes `None`. -/
def listLayout : Option Layout → Option Layout
  | Option.none => Option.none
  | Option.some l => if l.isEmpty then Option.none else Option.some l

/-- One iteration of the compile loop (lines 200-257): normalize the shared
`coupling_map` variable, run the non-simulator measurement check + barrier
insertion (mutating the circuit), compile, and build the job entry. Returns the
job, the (possibly mutated) circuit, and the new value of the shared variable. -/
def compileOne (bc : BackendConf) (backend : String) (basis_gates : Option String)
    (initial_layout : Option Layout) (seed : Option Int) (c : Circuit) (cm : CMap) :
    Except Err (Job × Circuit × CMap) := do
  let cm := normalizeCm c cm
  let c ← if bc.simulator then Except.ok c else barrierBeforeMeasure backend c
  let r ← compile_circuit c basis_gates cm initial_layout
  let job : Job :=
    { name := c.name
      config :=
        { coupling_map := cm, layout := listLayout r.layout,
          basis_gates := basis_gates, seed := seed }
      compiled_circuit := r.dag }
  .ok (job, c, cm)

/-- The compile loop (lines 200-257), threading the shared `coupling_map`
variable from one iteration to the next; the first raised error aborts the whole
fold. Returns the job list and the final states of the input circuits. -/
def compileLoop (bc : BackendConf) (backend : String) (basis_gates : Option String)
    (initial_layout : Option Layout) (seed : Option Int) :
    List Circuit → CMap → Except Err (List Job × List Circuit)
  | [], _ => .ok ([], [])
  | c :: rest, cm => do
      let (job, c', cm') ← compileOne bc backend basis_gates initial_layout seed c cm
      let (jobs, cs) ← compileLoop bc backend basis_gates initial_layout seed rest cm'
      .ok (job :: jobs, c' :: cs)

/-- `compile` (lines 53-258). `bc` is the backend capability descriptor the source
looks up via `backends.configuration(backend)`; `fresh_id` stands for the random
30-character id drawn when `qobj_id` is falsy. Because the source mutates its input
circuits in place (barrier insertion), the model returns the final state of the
input circuit list next to the qobj. -/
def compile (bc : BackendConf) (fresh_id : String) (circuits : List Circuit)
    (cfg : CompileConfig) : Except Err (Qobj × List Circuit) := do
  let qid := match cfg.qobj_id with
    | Option.some s => if s = "" then fresh_id else s
    | Option.none => fresh_id
  let hpcEntry ← hpcConfig cfg.backend cfg.hpc
  let basis := resolveBasisGates cfg.basis_gates bc.basis_gates
  let cm0 := resolveCouplingMap cfg.coupling_map bc.coupling_map
  let (jobs, cs) ←
    compileLoop bc cfg.backend basis cfg.initial_layout cfg.seed circuits cm0
  .ok (⟨qid,
        { max_credits := cfg.max_credits, backend := cfg.backend,
          shots := cfg.shots, hpc := hpcEntry },
        jobs⟩, cs)

/-- Projection: the coupling map recorded in job `i` of a compile result. -/
def jobCouplingMap (r : Except Err (Qobj × List Circuit)) (i : Nat) : Option CMap :=
  match r with
  | .ok (q, _) => (q.circuits[i]?).map fun j => j.config.coupling_map
  | .error _ => Option.none

/-- Projection: job `i` of a compile result. -/
def jobAt (r : Except Err (Qobj × List Circuit)) (i : Nat) : Option Job :=
  match r with
  | .ok (q, _) => q.circuits[i]?
  | .error _ => Option.none

/-- Projection: the serialized layout of job `i` of a compile result. -/
def jobLayout (r : Except Err (Qobj × List Circuit)) (i : Nat) :
    Option (Option Layout) :=
  match r with
  | .ok (q, _) => (q.circuits[i]?).map fun j => j.config.layout
  | .error _ => Option.none

/-- Projection: the final circuit states of a compile result. -/
def circuitsOf (r : Except Err (Qobj × List Circuit)) : Option (List Circuit) :=
  match r with
  | .ok (_, cs) => Option.some cs
  | .error _ => Option.none

namespace ParamExpr

/-- The symbolic expressions stored in `ParameterExpression._symbol_expr`
(`src/qiskit/circuit/parameterexpression.py` builds them through sympy from
symbols, real constants and the arithmetic operators; this model keeps the
operators the claims need). -/
inductive SExpr where
  | num (q : ℚ)
  | sym (name : String)
  | add (a b : SExpr)
  | sub (a b : SExpr)
  | mul (a b : SExpr)
deriving DecidableEq, Repr

/-- The free symbols of a symbolic expression. -/
def freeSyms : SExpr → List String
  | .num _ => []
  | .sym s => [s]
  | .add a b => freeSyms a ++ freeSyms b
  | .sub a b => freeSyms a ++ freeSyms b
  | .mul a b => freeSyms a ++ freeSyms b

/-- Numeric evaluation of a closed symbolic expression (`float(self._symbol_expr)`
on the sympy side); an unbound symbol has no numeric value. -/
def evalClosed : SExpr → Option ℚ
  | .num q => Option.some q
  | .sym _ => Option.none
  | .add a b => do pure ((← evalClosed a) + (← evalClosed b))
  | .sub a b => do pure ((← evalClosed a) - (← evalClosed b))
  | .mul a b => do pure ((← evalClosed a) * (← evalClosed b))

/-- `ParameterExpression` (parameterexpression.py lines 28-47): the set of unbound
parameters (`self._parameters`, here a list of names) and the underlying symbolic
expression. The class keeps the invariant that every free symbol of
`_symbol_expr` belongs to a tracked parameter. -/
structure ParameterExpression where
  parameters : List String
  symbol_expr : SExpr
deriving DecidableEq, Repr

/-- The exceptions of numeric coercion: the `TypeError`s of `__float__` (lines
333-337) and `__int__` (lines 339-343), each carrying the interpolated
`self.parameters`; `nonNumeric` stands for the sympy-side failure on a non-numeric
expression. -/
inductive PErr where
  | unboundCastFloat (parameters : List String)
  | unboundCastInt (parameters : List String)
  | nonNumeric
deriving DecidableEq, Repr

/-- `__float__` (lines 333-337): raise naming `self.parameters` while any
parameter is unbound, else return the numeric value of the expression. -/
def pyFloat (pe : ParameterExpression) : Except PErr ℚ :=
  if pe.parameters.isEmpty then
    match evalClosed pe.symbol_expr with
    | Option.some v => .ok v
    | Option.none => .error .nonNumeric
  else
    .error (.unboundCastFloat pe.parameters)

/-- Truncation toward zero, Python `int()` on a rational value. -/
def ratTrunc (q : ℚ) : Int :=
  q.num.tdiv q.den

/-- `__int__` (lines 339-343): raise naming `self.parameters` while any parameter
is unbound, else return the numeric value truncated to an integer. -/
def pyInt (pe : ParameterExpression) : Except PErr Int :=
  if pe.parameters.isEmpty then
    match evalClosed pe.symbol_expr with
    | Option.some v => .ok (ratTrunc v)
    | Option.none => .error .nonNumeric
  else
    .error (.unboundCastInt pe.parameters)

end ParamExpr

/-! Concrete fixtures used by the claim theorems, their witnesses and
counterexamples. -/

/-- Qubit `("q", 0)`. -/
def q0 : Bit := ⟨"q", 0⟩

/-- Qubit `("q", 1)`. -/
def q1 : Bit := ⟨"q", 1⟩

/-- Classical bit `("c", 0)`. -/
def c0 : Bit := ⟨"c", 0⟩

/-- Classical bit `("c", 1)`. -/
def c1 : Bit := ⟨"c", 1⟩

/-- The scenario circuit `[H(q0), CX(q0,q1), Measure(q0,c0), Measure(q1,c1)]`. -/
def bellCircuit : Circuit :=
  ⟨"bell", [("q", 2)],
   [.gate "h" [] [q0], .gate "cx" [] [q0, q1], .measure q0 c0, .measure q1 c1]⟩

/-- A hardware (non-simulator) backend descriptor with no coupling map. -/
def bcHardware : BackendConf := ⟨Option.some "u1,u2,u3,cx,id", CMap.none, false⟩

/-- A simulator backend descriptor with no coupling map. -/
def bcSimulator : BackendConf := ⟨Option.some "u1,u2,u3,cx,id", CMap.none, true⟩

/-- A compile configuration targeting the hardware backend `ibmqx4`. -/
def cfgHardware : CompileConfig := { compile_config_default with backend := "ibmqx4" }

/-- A circuit that measures `q0` and then applies a gate to `q0`. -/
def gateAfterMeasQ0 : Circuit :=
  ⟨"cc", [("q", 2)], [.measure q0 c0, .gate "u3" [] [q0]]⟩

/-- A circuit of the same name that measures `q1` and then applies a gate to `q1`. -/
def gateAfterMeasQ1 : Circuit :=
  ⟨"cc", [("q", 2)], [.measure q1 c1, .gate "u3" [] [q1]]⟩

/-- A circuit that measures `q0` twice, with no gate in between. -/
def measureTwice : Circuit :=
  ⟨"mm", [("q", 1)], [.measure q0 c0, .measure q0 c0]⟩

/-- A circuit with two measurements and nothing else. -/
def twoMeasCircuit : Circuit :=
  ⟨"tm", [("q", 2)], [.measure q0 c0, .measure q1 c1]⟩

/-- A one-qubit circuit (its compilation nulls the shared coupling-map variable). -/
def oneQubitCircuit : Circuit :=
  ⟨"single", [("q", 1)], [.gate "u1" [.const 0] [q0]]⟩

/-- A two-qubit circuit with a single CX. -/
def cxCircuit : Circuit :=
  ⟨"pair", [("q", 2)], [.gate "cx" [] [q0, q1]]⟩

/-- The hardware configuration plus the coupling map `[[0, 1]]`. -/
def cfgCoupled : CompileConfig :=
  { compile_config_default with backend := "ibmqx4", coupling_map := .edges [(0, 1)] }

/-- Whether an instruction is a `Measure`. -/
def Inst.isMeasure : Inst → Bool
  | .measure _ _ => true
  | _ => false

/-- The qubits measured by a list of instructions, in order
(what `measured_qubits` holds after scanning that list). -/
def measuresOf (l : List Inst) : List Bit :=
  l.filterMap fun i =>
    match i with
    | .measure q _ => Option.some q
    | _ => Option.none

/-- The value of the shared `coupling_map` loop variable when iteration `k` of the
compile loop begins: the normalizations of the first `k` circuits folded over the
initial value (the rebinding happens before any raise, so it is well defined even
when an iteration fails). -/
def cmState (circuits : List Circuit) (cm : CMap) (k : Nat) : CMap :=
  (circuits.take k).foldl (fun m c => normalizeCm c m) cm

/-!  ## Claim theorems  -/

/-- **C8.** For `[H(q0), CX(q0,q1), Measure(q0,c0), Measure(q1,c1)]` with basis
`u1,u2,u3,cx,id` and no coupling map: `HGate._define` declares exactly one
`u2(0, π)` on the operand, `compile_circuit` replaces the H node by that single
`u2(0, π)` node, keeps the CX node unchanged, and the driver records a null layout
in the job config. -/
theorem C8_h_cx_measure_scenario :
    gateDefinition "h" [] [q0] = Option.some [.gate "u2" [.const 0, .pi] [q0]] ∧
    compile_circuit bellCircuit (Option.some "u1,u2,u3,cx,id") CMap.none Option.none =
      .ok ⟨[.gate "u2" [.const 0, .pi] [q0], .gate "cx" [] [q0, q1],
            .measure q0 c0, .measure q1 c1],
           Option.none, [.unroller]⟩ ∧
    jobLayout (compile bcSimulator "jid" [bellCircuit]
      { compile_config_default with backend := "local_qasm_simulator" }) 0 =
      Option.some Option.none :=
  ⟨rfl, rfl, rfl⟩

/-- A closed symbolic expression (no free symbols) has a numeric value. -/
theorem evalClosed_of_no_freeSyms (e : ParamExpr.SExpr)
    (h : ParamExpr.freeSyms e = []) :
    ∃ v, ParamExpr.evalClosed e = Option.some v := by
  induction e with
  | num q => exact ⟨q, rfl⟩
  | sym s => simp [ParamExpr.freeSyms] at h
  | add a b iha ihb =>
      rw [ParamExpr.freeSyms, List.append_eq_nil] at h
      obtain ⟨va, hva⟩ := iha h.1
      obtain ⟨vb, hvb⟩ := ihb h.2
      exact ⟨va + vb, by simp [ParamExpr.evalClosed, hva, hvb]⟩
  | sub a b iha ihb =>
      rw [ParamExpr.freeSyms, List.append_eq_nil] at h
      obtain ⟨va, hva⟩ := iha h.1
      obtain ⟨vb, hvb⟩ := ihb h.2
      exact ⟨va - vb, by simp [ParamExpr.evalClosed, hva, hvb]⟩
  | mul a b iha ihb =>
      rw [ParamExpr.freeSyms, List.append_eq_nil] at h
      obtain ⟨va, hva⟩ := iha h.1
      obtain ⟨vb, hvb⟩ := ihb h.2
      exact ⟨va * vb, by simp [ParamExpr.evalClosed, hva, hvb]⟩

/-- **C9.** While any parameter remains unbound, `__float__` and `__int__` raise a
`TypeError` naming the unbound parameters; when the parameter set is empty (given
the class invariant that every free symbol is a tracked parameter), both coercions
succeed and return the numeric value of the expression. -/
theorem C9_numeric_coercion :
    (∀ pe : ParamExpr.ParameterExpression, pe.parameters ≠ [] →
      ParamExpr.pyFloat pe = .error (.unboundCastFloat pe.parameters) ∧
      ParamExpr.pyInt pe = .error (.unboundCastInt pe.parameters)) ∧
    (∀ pe : ParamExpr.ParameterExpression, pe.parameters = [] →
      (∀ s ∈ ParamExpr.freeSyms pe.symbol_expr, s ∈ pe.parameters) →
      ∃ v, ParamExpr.evalClosed pe.symbol_expr = Option.some v ∧
        ParamExpr.pyFloat pe = .ok v ∧
        ParamExpr.pyInt pe = .ok (ParamExpr.ratTrunc v)) := by
  constructor
  · intro pe hne
    have hemp : pe.parameters.isEmpty = false := by
      cases hp : pe.parameters with
      | nil => exact absurd hp hne
      | cons a l => rfl
    exact ⟨by rw [ParamExpr.pyFloat, hemp]; rfl, by rw [ParamExpr.pyInt, hemp]; rfl⟩
  · intro pe hp hwf
    have hclosed : ParamExpr.freeSyms pe.symbol_expr = [] := by
      cases hf : ParamExpr.freeSyms pe.symbol_expr with
      | nil => rfl
      | cons s l =>
          have : s ∈ pe.parameters := hwf s (by rw [hf]; exact List.mem_cons_self s l)
          rw [hp] at this
          exact absurd this (List.not_mem_nil s)
    obtain ⟨v, hv⟩ := evalClosed_of_no_freeSyms pe.symbol_expr hclosed
    refine ⟨v, hv, ?_, ?_⟩
    · rw [ParamExpr.pyFloat, hp]
      simp [hv]
    · rw [ParamExpr.pyInt, hp]
      simp [hv]

/-- Witness for C9: a single unbound parameter `theta` blocks both coercions with
an error carrying `["theta"]`; the closed expression `1 + 2` casts to `3`. -/
theorem C9_numeric_coercion_witness :
    ParamExpr.pyFloat ⟨["theta"], .sym "theta"⟩ =
      .error (.unboundCastFloat ["theta"]) ∧
    ParamExpr.pyInt ⟨["theta"], .sym "theta"⟩ =
      .error (.unboundCastInt ["theta"]) ∧
    ∃ v, ParamExpr.evalClosed (ParamExpr.SExpr.add (.num 1) (.num 2)) = Option.some v ∧
      ParamExpr.pyFloat ⟨[], .add (.num 1) (.num 2)⟩ = .ok v ∧
      ParamExpr.pyInt ⟨[], .add (.num 1) (.num 2)⟩ = .ok (ParamExpr.ratTrunc v) := by
  obtain ⟨h1, h2⟩ := C9_numeric_coercion.1 ⟨["theta"], .sym "theta"⟩ (by simp)
  refine ⟨h1, h2, ?_⟩
  exact C9_numeric_coercion.2 ⟨[], .add (.num 1) (.num 2)⟩ rfl
    (by intro s hs; simp [ParamExpr.freeSyms] at hs)

/-- **C6.** The hpc block: for `ibmqx_hpc_qasm_simulator` an absent block defaults
to `{multi_shot_optimization: true, omp_num_threads: 16}` and a block missing
either required key raises the configuration error; for every other backend any
supplied block is dropped without error and the qobj config carries no hpc key. -/
theorem C6_hpc_block :
    hpcConfig "ibmqx_hpc_qasm_simulator" Option.none =
      .ok (Option.some ⟨Option.some true, Option.some 16⟩) ∧
    (∀ h : Hpc,
      h.multi_shot_optimization = Option.none ∨ h.omp_num_threads = Option.none →
      hpcConfig "ibmqx_hpc_qasm_simulator" (Option.some h) =
        .error .unknownHpcFormat) ∧
    (∀ (b : String) (hp : Option Hpc), b ≠ "ibmqx_hpc_qasm_simulator" →
      hpcConfig b hp = .ok Option.none) ∧
    (∀ (bc : BackendConf) (fresh : String) (circuits : List Circuit)
       (cfg : CompileConfig) (q : Qobj) (cs : List Circuit),
       cfg.backend ≠ "ibmqx_hpc_qasm_simulator" →
       compile bc fresh circuits cfg = .ok (q, cs) → q.config.hpc = Option.none) := by
  have hother : ∀ (b : String) (hp : Option Hpc), b ≠ "ibmqx_hpc_qasm_simulator" →
      hpcConfig b hp = .ok Option.none := by
    intro b hp hb
    rw [hpcConfig, if_neg hb]
  refine ⟨rfl, ?_, hother, ?_⟩
  · intro h hmiss
    rw [hpcConfig, if_pos rfl]
    rcases hmiss with hm | hm <;> simp [Option.getD, hm]
  · intro bc fresh circuits cfg q cs hb hok
    rw [compile] at hok
    rw [hother cfg.backend cfg.hpc hb] at hok
    simp only [bind, Except.bind] at hok
    cases hloop : compileLoop bc cfg.backend
        (resolveBasisGates cfg.basis_gates bc.basis_gates) cfg.initial_layout
        cfg.seed circuits (resolveCouplingMap cfg.coupling_map bc.coupling_map) with
    | error e => rw [hloop] at hok; exact absurd hok (by simp)
    | ok p =>
        rw [hloop] at hok
        obtain ⟨hq, _⟩ := Prod.mk.injEq .. ▸ (Except.ok.injEq .. ▸ hok)
        rw [← hq]

/-- Witness for C6: a block missing `omp_num_threads` is rejected for the HPC
backend; for `ibmqx4` a complete block is dropped, and a concrete compile to
`ibmqx4` yields a qobj config without the hpc key. -/
theorem C6_hpc_block_witness :
    hpcConfig "ibmqx_hpc_qasm_simulator"
      (Option.some ⟨Option.some true, Option.none⟩) = .error .unknownHpcFormat ∧
    hpcConfig "ibmqx4" (Option.some ⟨Option.some true, Option.some 16⟩) =
      .ok Option.none ∧
    (Qobj.mk "jid" ⟨10, "ibmqx4", 1024, Option.none⟩ []).config.hpc = Option.none := by
  refine ⟨C6_hpc_block.2.1 _ (Or.inr rfl), C6_hpc_block.2.2.1 _ _ (by decide), ?_⟩
  exact C6_hpc_block.2.2.2 bcSimulator "jid" [] cfgHardware _ [] (by decide) rfl

/-- **C2.** Refuted on the code: batch compilation is *not* independent across
circuits. The loop body rebinds the shared `coupling_map` variable (lines
203-206), so a 1-qubit circuit earlier in the batch nulls the coupling map of
every later circuit: in the batch `[single, pair]` with coupling map `[[0, 1]]`
the job for `pair` records `coupling_map = None` (and is unrouted), while `pair`
compiled alone with the same configuration records `[[0, 1]]`; the two job
entries differ. -/
theorem C2_batch_coupling_leak :
    jobCouplingMap (compile bcSimulator "jid" [oneQubitCircuit, cxCircuit] cfgCoupled) 1 =
      Option.some CMap.none ∧
    jobCouplingMap (compile bcSimulator "jid" [cxCircuit] cfgCoupled) 0 =
      Option.some (CMap.edges [(0, 1)]) ∧
    jobAt (compile bcSimulator "jid" [oneQubitCircuit, cxCircuit] cfgCoupled) 1 ≠
      jobAt (compile bcSimulator "jid" [cxCircuit] cfgCoupled) 0 :=
  ⟨rfl, rfl, by decide⟩

/-- When the backend is a simulator, one loop iteration returns its circuit
unchanged. -/
theorem compileOne_simulator_circuit (bc : BackendConf) (backend : String)
    (basis : Option String) (il : Option Layout) (seed : Option Int)
    (c : Circuit) (cm : CMap) (j : Job) (c' : Circuit) (cm' : CMap)
    (hsim : bc.simulator = true)
    (h : compileOne bc backend basis il seed c cm = .ok (j, c', cm')) : c' = c := by
  rw [compileOne, hsim] at h
  simp only [if_true, bind, Except.bind, pure, Except.pure] at h
  cases hcc : compile_circuit c basis (normalizeCm c cm) il with
  | error e => rw [hcc] at h; simp at h
  | ok r =>
      rw [hcc] at h
      simp only [Except.ok.injEq, Prod.mk.injEq] at h
      exact h.2.1.symm

/-- When the backend is a simulator, the compile loop returns the input circuit
list unchanged. -/
theorem compileLoop_simulator_circuits (bc : BackendConf) (backend : String)
    (basis : Option String) (il : Option Layout) (seed : Option Int)
    (hsim : bc.simulator = true) :
    ∀ (circuits : List Circuit) (cm : CMap) (jobs : List Job) (cs : List Circuit),
      compileLoop bc backend basis il seed circuits cm = .ok (jobs, cs) →
      cs = circuits := by
  intro circuits
  induction circuits with
  | nil =>
      intro cm jobs cs h
      rw [compileLoop] at h
      exact ((Prod.mk.injEq ..).mp ((Except.ok.injEq ..).mp h)).2.symm
  | cons c rest ih =>
      intro cm jobs cs h
      rw [compileLoop] at h
      simp only [bind, Except.bind] at h
      cases hone : compileOne bc backend basis il seed c cm with
      | error e => rw [hone] at h; simp at h
      | ok t =>
          obtain ⟨j, c', cm'⟩ := t
          rw [hone] at h
          simp only [] at h
          cases hrest : compileLoop bc backend basis il seed rest cm' with
          | error e => rw [hrest] at h; simp at h
          | ok p =>
              obtain ⟨jobs', cs'⟩ := p
              rw [hrest] at h
              simp only [Except.ok.injEq, Prod.mk.injEq] at h
              obtain ⟨-, hcs⟩ := h
              rw [← hcs, compileOne_simulator_circuit bc backend basis il seed c cm j c' cm' hsim hone,
                  ih cm' jobs' cs' hrest]

/-- **C10.** `compile` mutates its input at the public interface: for a simulator
backend the returned circuit states always equal the input, while for a
non-simulator backend there are inputs (here a circuit with measurements) whose
post-call state differs from the input — barrier instructions were inserted into
the caller's `circuit.data`. -/
theorem C10_input_mutation :
    (∀ (bc : BackendConf) (fresh : String) (circuits : List Circuit)
       (cfg : CompileConfig) (q : Qobj) (cs : List Circuit),
       bc.simulator = true →
       compile bc fresh circuits cfg = .ok (q, cs) → cs = circuits) ∧
    circuitsOf (compile bcHardware "jid" [measureTwice] cfgHardware) =
      Option.some [{ measureTwice with
        data := [.barrier [q0], .barrier [q0], .measure q0 c0, .measure q0 c0] }] ∧
    circuitsOf (compile bcHardware "jid" [measureTwice] cfgHardware) ≠
      Option.some [measureTwice] := by
  refine ⟨?_, rfl, by decide⟩
  intro bc fresh circuits cfg q cs hsim hok
  rw [compile] at hok
  simp only [bind, Except.bind] at hok
  cases hh : hpcConfig cfg.backend cfg.hpc with
  | error e => rw [hh] at hok; exact absurd hok (by simp)
  | ok hpcEntry =>
      rw [hh] at hok
      cases hloop : compileLoop bc cfg.backend
          (resolveBasisGates cfg.basis_gates bc.basis_gates) cfg.initial_layout
          cfg.seed circuits (resolveCouplingMap cfg.coupling_map bc.coupling_map) with
      | error e => rw [hloop] at hok; exact absurd hok (by simp)
      | ok p =>
          obtain ⟨jobs, cs'⟩ := p
          rw [hloop] at hok
          obtain ⟨-, hcs⟩ := (Prod.mk.injEq ..).mp ((Except.ok.injEq ..).mp hok)
          rw [← hcs]
          exact compileLoop_simulator_circuits bc cfg.backend _ _ _ hsim circuits _
            jobs cs' hloop

/-- Witness for C10: a concrete simulator compile returns its input circuits
untouched. -/
theorem C10_input_mutation_witness :
    compile bcSimulator "jid" [bellCircuit]
      { compile_config_default with backend := "local_qasm_simulator" } =
      .ok (⟨"jid", ⟨10, "local_qasm_simulator", 1024, Option.none⟩,
            [⟨"bell",
              ⟨CMap.none, Option.none, Option.some "u1,u2,u3,cx,id", Option.some 1⟩,
              [.gate "u2" [.const 0, .pi] [q0], .gate "cx" [] [q0, q1],
               .measure q0 c0, .measure q1 c1]⟩]⟩,
           [bellCircuit]) ∧
    ([bellCircuit] : List Circuit) = [bellCircuit] := by
  constructor
  · rfl
  · exact C10_input_mutation.1 bcSimulator "jid" [bellCircuit]
      { compile_config_default with backend := "local_qasm_simulator" } _ _ rfl rfl

/-- **C4.** `compile_circuit` runs exactly the pipeline: unroll; then — if and
only if a coupling map is present (truthy) — router (`trials=20, seed=13`),
a second unroll, direction correction, CX cancellation, single-qubit fusion;
no stage other than the unroller runs twice. -/
theorem C4_pipeline_stage_order (qc : Circuit) (basis_gates : Option String)
    (cm : CMap) (il : Option Layout) (r : CompiledCircuit)
    (h : compile_circuit qc basis_gates cm il = .ok r) :
    r.stages =
      if cm.truthy then
        [.unroller, .swapMapper 20 13, .unroller, .directionMapper,
         .cxCancellation, .optimize1q]
      else [.unroller] := by
  rw [compile_circuit] at h
  simp only [bind, Except.bind] at h
  cases hu : unrollDag (basisList basis_gates) qc.data with
  | error e => rw [hu] at h; simp at h
  | ok dag0 =>
      rw [hu] at h
      cases ht : cm.truthy with
      | false =>
          simp only [ht, Bool.false_eq_true, if_false, Except.ok.injEq] at h
          simp [ht, ← h]
      | true =>
          simp only [ht, if_true] at h
          cases hsw : swap_mapper dag0 cm.edgeList il 20 13 with
          | mk dag1 lay =>
              rw [hsw] at h
              simp only [] at h
              cases hu2 : unrollDag (basisList basis_gates) dag1 with
              | error e => rw [hu2] at h; simp at h
              | ok dag2 =>
                  rw [hu2] at h
                  simp only [Except.ok.injEq] at h
                  simp [ht, ← h]

/-- Witness for C4: the stage order at a concrete uncoupled compile and at a
concrete coupled compile. -/
theorem C4_pipeline_stage_order_witness :
    (CompiledCircuit.mk
      [.gate "u2" [.const 0, .pi] [q0], .gate "cx" [] [q0, q1],
       .measure q0 c0, .measure q1 c1] Option.none [.unroller]).stages =
      (if CMap.none.truthy then
        [Stage.unroller, .swapMapper 20 13, .unroller, .directionMapper,
         .cxCancellation, .optimize1q]
      else [Stage.unroller]) ∧
    (CompiledCircuit.mk [.gate "cx" [] [q0, q1]]
      (Option.some [(q0, q0), (q1, q1)])
      [.unroller, .swapMapper 20 13, .unroller, .directionMapper,
       .cxCancellation, .optimize1q]).stages =
      (if (CMap.edges [(0, 1)]).truthy then
        [Stage.unroller, .swapMapper 20 13, .unroller, .directionMapper,
         .cxCancellation, .optimize1q]
      else [Stage.unroller]) :=
  ⟨C4_pipeline_stage_order bellCircuit (Option.some "u1,u2,u3,cx,id")
      CMap.none Option.none _ rfl,
   C4_pipeline_stage_order cxCircuit (Option.some "u1,u2,u3,cx,id")
      (CMap.edges [(0, 1)]) Option.none _ rfl⟩

/-- With no coupling map, `compile_circuit` reports no layout and its DAG is the
unrolled input. -/
theorem compile_circuit_no_coupling (qc : Circuit) (basis_gates : Option String)
    (il : Option Layout) (r : CompiledCircuit)
    (h : compile_circuit qc basis_gates CMap.none il = .ok r) :
    r.layout = Option.none ∧
    unrollDag (basisList basis_gates) qc.data = .ok r.dag := by
  rw [compile_circuit] at h
  simp only [bind, Except.bind] at h
  cases hu : unrollDag (basisList basis_gates) qc.data with
  | error e => rw [hu] at h; simp at h
  | ok dag0 =>
      rw [hu] at h
      simp only [CMap.truthy, Bool.false_eq_true, if_false, Except.ok.injEq] at h
      cases h
      exact ⟨rfl, rfl⟩

/-- **C5.** In the compile loop, a circuit with exactly one qubit — and likewise a
coupling map that is the `all-to-all` sentinel — forces no routing: the shared
coupling-map variable becomes `None`, the job records a null layout, and the
compiled DAG is exactly the unrolled input (the circuit as it stands after the
driver's barrier insertion), with no SWAP inserted. -/
theorem C5_router_bypass (bc : BackendConf) (backend : String)
    (basis_gates : Option String) (il : Option Layout) (seed : Option Int)
    (c : Circuit) (cm : CMap) (job : Job) (c' : Circuit) (cm' : CMap)
    (hbypass : numQubits c = 1 ∨ cm = CMap.allToAll)
    (h : compileOne bc backend basis_gates il seed c cm = .ok (job, c', cm')) :
    cm' = CMap.none ∧ job.config.layout = Option.none ∧
    unrollDag (basisList basis_gates) c'.data = .ok job.compiled_circuit := by
  have hnorm : normalizeCm c cm = CMap.none := by
    rw [normalizeCm]
    rcases hbypass with h1 | h1
    · simp [h1]
    · by_cases h2 : numQubits c = 1 <;> simp [h1, h2]
  rw [compileOne, hnorm] at h
  simp only [bind, Except.bind] at h
  cases hs : bc.simulator with
  | true =>
      rw [hs] at h
      simp only [if_true] at h
      cases hcc : compile_circuit c basis_gates CMap.none il with
      | error e => rw [hcc] at h; simp at h
      | ok v =>
          rw [hcc] at h
          simp only [Except.ok.injEq, Prod.mk.injEq] at h
          obtain ⟨hjob, hc', hcm'⟩ := h
          obtain ⟨hlay, hdag⟩ := compile_circuit_no_coupling c basis_gates il v hcc
          refine ⟨hcm'.symm, ?_, ?_⟩
          · rw [← hjob]
            simp [hlay, listLayout]
          · rw [← hc', ← hjob]
            exact hdag
  | false =>
      rw [hs] at h
      simp only [Bool.false_eq_true, if_false] at h
      cases hbar : barrierBeforeMeasure backend c with
      | error e => rw [hbar] at h; simp at h
      | ok cb =>
          rw [hbar] at h
          simp only [] at h
          cases hcc : compile_circuit cb basis_gates CMap.none il with
          | error e => rw [hcc] at h; simp at h
          | ok v =>
              rw [hcc] at h
              simp only [Except.ok.injEq, Prod.mk.injEq] at h
              obtain ⟨hjob, hc', hcm'⟩ := h
              obtain ⟨hlay, hdag⟩ := compile_circuit_no_coupling cb basis_gates il v hcc
              refine ⟨hcm'.symm, ?_, ?_⟩
              · rw [← hjob]
                simp [hlay, listLayout]
              · rw [← hc', ← hjob]
                exact hdag

/-- Witness for C5: a concrete one-qubit circuit compiled against the coupling map
`[[0, 1]]` bypasses the router. -/
theorem C5_router_bypass_witness :
    CMap.none = CMap.none ∧
    (JobConfig.mk CMap.none Option.none (Option.some "u1,u2,u3,cx,id")
      (Option.some 1)).layout = Option.none ∧
    unrollDag (basisList (Option.some "u1,u2,u3,cx,id")) oneQubitCircuit.data =
      .ok [.gate "u1" [.const 0] [q0]] := by
  have := C5_router_bypass bcSimulator "ibmqx4" (Option.some "u1,u2,u3,cx,id")
    Option.none (Option.some 1) oneQubitCircuit (CMap.edges [(0, 1)])
    ⟨"single", ⟨CMap.none, Option.none, Option.some "u1,u2,u3,cx,id", Option.some 1⟩,
      [.gate "u1" [.const 0] [q0]]⟩
    oneQubitCircuit CMap.none (Or.inl rfl) rfl
  exact this

/-- Scanning past a measure-free block leaves the accumulators empty and advances
the index by its length (a gate can never trip the check while nothing is
measured). -/
theorem measurementScan_skip_premeasure (b nm : String) :
    ∀ (pre tail : List Inst) (i : Nat),
      (∀ x ∈ pre, x.isMeasure = false) →
      measurementScan b nm (pre ++ tail) i [] [] =
        measurementScan b nm tail (i + pre.length) [] [] := by
  intro pre
  induction pre with
  | nil => intro tail i _; simp
  | cons x pre ih =>
      intro tail i h
      match x with
      | .measure q cbit =>
          exact absurd (h _ (List.mem_cons_self _ _)) (by simp [Inst.isMeasure])
      | .gate n p args =>
          rw [List.cons_append, measurementScan]
          have hany : (args.any fun a => ([] : List Bit).contains a) = false := by
            simp
          rw [hany]
          simp only [Bool.false_eq_true, if_false]
          rw [ih tail (i + 1) fun y hy => h y (List.mem_cons_of_mem _ hy)]
          congr 1
          simp only [List.length_cons]
          omega
      | .barrier bargs =>
          rw [List.cons_append, measurementScan]
          rw [ih tail (i + 1) fun y hy => h y (List.mem_cons_of_mem _ hy)]
          congr 1
          simp only [List.length_cons]
          omega

/-- After a single measurement of `q`, scanning a block with no further
measurement and no gate touching `q` succeeds and returns the accumulators
unchanged. -/
theorem measurementScan_after_single (b nm : String) (q : Bit) :
    ∀ (post : List Inst) (i : Nat) (idxs : List Nat),
      (∀ x ∈ post, x.isMeasure = false) →
      (∀ n p args, Inst.gate n p args ∈ post → q ∉ args) →
      measurementScan b nm post i [q] idxs = .ok ([q], idxs) := by
  intro post
  induction post with
  | nil => intro i idxs _ _; rfl
  | cons x rest ih =>
      intro i idxs h1 h2
      match x with
      | .measure q2 cbit =>
          exact absurd (h1 _ (List.mem_cons_self _ _)) (by simp [Inst.isMeasure])
      | .gate n p args =>
          rw [measurementScan]
          have hq : q ∉ args := h2 n p args (List.mem_cons_self _ _)
          have hany : (args.any fun a => ([q] : List Bit).contains a) = false := by
            simp only [List.any_eq_false, List.contains_cons, List.elem_nil,
                       Bool.or_false, beq_iff_eq]
            intro a ha heq
            exact hq (heq ▸ ha)
          rw [hany]
          simp only [Bool.false_eq_true, if_false]
          exact ih (i + 1) idxs (fun y hy => h1 y (List.mem_cons_of_mem _ hy))
            (fun n' p' args' hmem => h2 n' p' args' (List.mem_cons_of_mem _ hmem))
      | .barrier bargs =>
          rw [measurementScan]
          exact ih (i + 1) idxs (fun y hy => h1 y (List.mem_cons_of_mem _ hy))
            (fun n' p' args' hmem => h2 n' p' args' (List.mem_cons_of_mem _ hmem))

/-- **C3, counterexample.** For the circuit `[Measure(q0,c0), Measure(q1,c1)]` on
a non-simulator backend the insertion loop places *both* barriers before *both*
measurements (`[Barrier(q0), Barrier(q1), M(q0), M(q1)]`): the instruction
immediately before the second measurement is the first measurement, not a barrier
on the measured qubit — the claimed "immediately before each measurement" fails
as soon as a circuit has two measurements. -/
theorem C3_counterexample :
    barrierBeforeMeasure "ibmqx4" twoMeasCircuit =
      .ok { twoMeasCircuit with
        data := [.barrier [q0], .barrier [q1], .measure q0 c0, .measure q1 c1] } ∧
    (insertBarriers twoMeasCircuit.data [0, 1] [q0, q1])[3]? =
      Option.some (.measure q1 c1) ∧
    (insertBarriers twoMeasCircuit.data [0, 1] [q0, q1])[2]? =
      Option.some (.measure q0 c0) :=
  ⟨rfl, rfl, rfl⟩

/-- **C3, amended.** The barrier for each measurement is inserted at the
measurement's original index, which places it immediately before its measurement
only as long as no earlier insertion has shifted the list: for a circuit whose
data holds exactly one measurement (and, to pass the ordering check, no later
gate on the measured qubit), the barrier does sit immediately before that
measurement; with two or more measurements it does not (see the
counterexample). -/
theorem C3_barrier_single_measurement (backend : String) (c : Circuit)
    (pre post : List Inst) (q cb : Bit)
    (hdata : c.data = pre ++ .measure q cb :: post)
    (hpre : ∀ x ∈ pre, x.isMeasure = false)
    (hpost : ∀ x ∈ post, x.isMeasure = false)
    (hgate : ∀ n p args, Inst.gate n p args ∈ post → q ∉ args) :
    barrierBeforeMeasure backend c =
      .ok { c with data := pre ++ .barrier [q] :: .measure q cb :: post } := by
  have hscan : measurementScan backend c.name (pre ++ .measure q cb :: post) 0 [] [] =
      .ok ([q], [pre.length]) := by
    rw [measurementScan_skip_premeasure backend c.name pre _ 0 hpre]
    rw [measurementScan]
    have := measurementScan_after_single backend c.name q post
      (0 + pre.length + 1) [0 + pre.length] hpost hgate
    simpa using this
  have hins : insertBarriers (pre ++ .measure q cb :: post) [pre.length] [q] =
      pre ++ .barrier [q] :: .measure q cb :: post := by
    rw [insertBarriers]
    simp only [List.zip_cons_cons, List.zip_nil_right, List.foldl_cons, List.foldl_nil]
    rw [pyInsert]
    rw [List.take_left, List.drop_left]
  rw [barrierBeforeMeasure, hdata]
  simp only [bind, Except.bind]
  rw [hscan]
  simp only [hins]

/-- Witness for the amended C3: a concrete single-measurement circuit gets its
barrier immediately before the measurement. -/
theorem C3_barrier_single_measurement_witness :
    barrierBeforeMeasure "ibmqx4"
      ⟨"w", [("q", 2)], [.gate "u3" [] [q1], .measure q0 c0, .gate "u2" [] [q1]]⟩ =
      .ok ⟨"w", [("q", 2)],
        [.gate "u3" [] [q1], .barrier [q0], .measure q0 c0, .gate "u2" [] [q1]]⟩ := by
  have := C3_barrier_single_measurement "ibmqx4"
    ⟨"w", [("q", 2)], [.gate "u3" [] [q1], .measure q0 c0, .gate "u2" [] [q1]]⟩
    [.gate "u3" [] [q1]] [.gate "u2" [] [q1]] q0 c0 rfl
    (by intro x hx; simp at hx; subst hx; rfl)
    (by intro x hx; simp at hx; subst hx; rfl)
    (by
      intro n p args hmem ha
      simp at hmem
      obtain ⟨hn, hp, hargs⟩ := hmem
      subst hargs
      simp [q0, q1] at ha)
  simpa using this

/-- If some gate at position `j` of the remaining data touches a qubit measured
earlier (either in the accumulator or by a measurement before position `j`), the
scan raises — and the error carries exactly the backend and the circuit name,
never the qubit. -/
theorem measurementScan_error (b nm : String) :
    ∀ (data : List Inst) (i : Nat) (measured : List Bit) (idxs : List Nat)
      (j : Nat) (n : String) (p : List SymParam) (args : List Bit) (a : Bit),
      data[j]? = Option.some (.gate n p args) → a ∈ args →
      a ∈ measured ++ measuresOf (data.take j) →
      measurementScan b nm data i measured idxs = .error (.gateAfterMeasure b nm) := by
  intro data
  induction data with
  | nil => intro i measured idxs j n p args a hj; simp at hj
  | cons x rest ih =>
      intro i measured idxs j n p args a hj ha hmem
      cases j with
      | zero =>
          rw [List.getElem?_cons_zero, Option.some.injEq] at hj
          subst hj
          rw [measurementScan]
          have hcond : (args.any fun y => measured.contains y) = true := by
            simp only [List.any_eq_true, List.contains_iff_exists_mem_beq]
            refine ⟨a, ha, ?_⟩
            have : a ∈ measured := by simpa [measuresOf] using hmem
            exact ⟨a, this, by simp⟩
          rw [hcond]
          exact if_pos rfl
      | succ j' =>
          rw [List.getElem?_cons_succ] at hj
          match x with
          | .measure q2 cbit =>
              rw [measurementScan]
              refine ih (i + 1) (measured ++ [q2]) (idxs ++ [i]) j' n p args a hj ha ?_
              have : a ∈ measured ++ (q2 :: measuresOf (rest.take j')) := by
                simpa [measuresOf, List.take_succ_cons] using hmem
              simp only [List.mem_append, List.mem_cons, List.mem_singleton,
                         List.not_mem_nil, or_false] at this ⊢
              tauto
          | .gate n2 p2 args2 =>
              rw [measurementScan]
              cases hcond : (args2.any fun y => measured.contains y) with
              | true => exact if_pos rfl
              | false =>
                  simp only [Bool.false_eq_true, if_false]
                  refine ih (i + 1) measured idxs j' n p args a hj ha ?_
                  simpa [measuresOf, List.take_succ_cons] using hmem
          | .barrier bargs =>
              rw [measurementScan]
              refine ih (i + 1) measured idxs j' n p args a hj ha ?_
              simpa [measuresOf, List.take_succ_cons] using hmem

/-- A failing measurement scan makes the whole loop iteration fail with the same
error, for every backend configuration state and coupling-map state. -/
theorem compileOne_scan_error (bc : BackendConf) (backend : String)
    (basis : Option String) (il : Option Layout) (seed : Option Int)
    (c : Circuit) (cm : CMap) (e : Err) (hsim : bc.simulator = false)
    (hscan : measurementScan backend c.name c.data 0 [] [] = .error e) :
    compileOne bc backend basis il seed c cm = .error e := by
  rw [compileOne]
  simp only [bind, Except.bind, hsim, Bool.false_eq_true, if_false]
  rw [barrierBeforeMeasure]
  simp only [bind, Except.bind]
  rw [hscan]

/-- If circuit `k` of the batch fails identically under every coupling-map state
while every earlier circuit succeeds under every coupling-map state, the loop
fails with exactly that error. -/
theorem compileLoop_error_at (bc : BackendConf) (backend : String)
    (basis : Option String) (il : Option Layout) (seed : Option Int) :
    ∀ (circuits : List Circuit) (cm : CMap) (k : Nat) (c : Circuit) (e : Err),
      circuits[k]? = Option.some c →
      (∀ m c', m < k → circuits[m]? = Option.some c' →
        ∀ cm₂, (compileOne bc backend basis il seed c' cm₂).isOk = true) →
      (∀ cm₂, compileOne bc backend basis il seed c cm₂ = .error e) →
      compileLoop bc backend basis il seed circuits cm = .error e := by
  intro circuits
  induction circuits with
  | nil => intro cm k c e hk; simp at hk
  | cons c0 rest ih =>
      intro cm k c e hk hearlier hfail
      cases k with
      | zero =>
          rw [List.getElem?_cons_zero, Option.some.injEq] at hk
          subst hk
          rw [compileLoop]
          simp only [bind, Except.bind]
          rw [hfail cm]
      | succ k' =>
          rw [List.getElem?_cons_succ] at hk
          rw [compileLoop]
          simp only [bind, Except.bind]
          cases hone : compileOne bc backend basis il seed c0 cm with
          | error e0 =>
              exfalso
              have h0 := hearlier 0 c0 (Nat.succ_pos k') (by simp) cm
              rw [hone] at h0
              simp [Except.isOk, Except.toBool] at h0
          | ok t =>
              obtain ⟨j, c0', cm'⟩ := t
              have hrest := ih cm' k' c e hk
                (fun m c' hm hmem =>
                  hearlier (m + 1) c' (Nat.succ_lt_succ hm) (by simpa using hmem))
                hfail
              simp [hrest]

/-- **C1, counterexample.** The measurement-ordering error does not identify the
measured qubit: two circuits with the same name whose offending qubits differ
(`q0` versus `q1`) raise the *same* error value — the message only interpolates
the backend and the circuit name (lines 217-218). Moreover a second measurement
of an already-measured qubit is an "operation touching a measured qubit" that
raises nothing at all: the scan only checks `Gate` instances. -/
theorem C1_counterexample :
    compile bcHardware "jid" [gateAfterMeasQ0] cfgHardware =
      .error (.gateAfterMeasure "ibmqx4" "cc") ∧
    compile bcHardware "jid" [gateAfterMeasQ1] cfgHardware =
      .error (.gateAfterMeasure "ibmqx4" "cc") ∧
    (compile bcHardware "jid" [measureTwice] cfgHardware).isOk = true :=
  ⟨rfl, rfl, rfl⟩

/-- **C1, amended.** For a batch compile to a backend with `simulator = false`:
if circuit `k` applies a *gate* to a qubit measured earlier in its program order
(second measurements and barriers are not checked), while the hpc block is
acceptable and every earlier circuit of the batch compiles cleanly, then the
whole compile fails with the measurement-ordering error carrying the backend and
the circuit name (but not the qubit), and no job description is returned — the
result is an error, not a qobj. -/
theorem C1_gate_after_measure (bc : BackendConf) (fresh : String)
    (circuits : List Circuit) (cfg : CompileConfig) (k : Nat) (c : Circuit)
    (hsim : bc.simulator = false)
    (hhpc : ∃ hv, hpcConfig cfg.backend cfg.hpc = .ok hv)
    (hk : circuits[k]? = Option.some c)
    (hbad : ∃ j n p args a, c.data[j]? = Option.some (.gate n p args) ∧
      a ∈ args ∧ a ∈ measuresOf (c.data.take j))
    (hearlier : ∀ m c', m < k → circuits[m]? = Option.some c' →
      ∀ cm₂, (compileOne bc cfg.backend
        (resolveBasisGates cfg.basis_gates bc.basis_gates) cfg.initial_layout
        cfg.seed c' cm₂).isOk = true) :
    compile bc fresh circuits cfg = .error (.gateAfterMeasure cfg.backend c.name) := by
  obtain ⟨j, n, p, args, a, hj, ha, hmeas⟩ := hbad
  have hscan : measurementScan cfg.backend c.name c.data 0 [] [] =
      .error (.gateAfterMeasure cfg.backend c.name) :=
    measurementScan_error cfg.backend c.name c.data 0 [] [] j n p args a hj ha
      (by simpa using hmeas)
  have hfail : ∀ cm₂, compileOne bc cfg.backend
      (resolveBasisGates cfg.basis_gates bc.basis_gates) cfg.initial_layout
      cfg.seed c cm₂ = .error (.gateAfterMeasure cfg.backend c.name) :=
    fun cm₂ => compileOne_scan_error bc cfg.backend _ _ _ c cm₂ _ hsim hscan
  have hloop := compileLoop_error_at bc cfg.backend
    (resolveBasisGates cfg.basis_gates bc.basis_gates) cfg.initial_layout cfg.seed
    circuits (resolveCouplingMap cfg.coupling_map bc.coupling_map) k c
    (.gateAfterMeasure cfg.backend c.name) hk hearlier hfail
  obtain ⟨hv, hh⟩ := hhpc
  rw [compile]
  simp only [bind, Except.bind]
  rw [hh, hloop]

/-- Witness for the amended C1: the concrete circuit `[M(q0,c0), u3(q0)]` on the
hardware backend makes the whole batch compile fail with the error carrying
backend `ibmqx4` and circuit name `cc`. -/
theorem C1_gate_after_measure_witness :
    compile bcHardware "jid" [gateAfterMeasQ0] cfgHardware =
      .error (.gateAfterMeasure "ibmqx4" "cc") := by
  have := C1_gate_after_measure bcHardware "jid" [gateAfterMeasQ0] cfgHardware 0
    gateAfterMeasQ0 rfl ⟨Option.none, rfl⟩ rfl
    ⟨1, "u3", [], [q0], q0, rfl, by simp, by simp [gateAfterMeasQ0, measuresOf]⟩
    (by intro m c' hm; exact absurd hm (Nat.not_lt_zero m))
  simpa using this

/-- A successful loop iteration hands the normalized coupling-map state to the
next iteration. -/
theorem compileOne_ok_cm (bc : BackendConf) (backend : String)
    (basis : Option String) (il : Option Layout) (seed : Option Int)
    (c : Circuit) (cm : CMap) (j : Job) (c' : Circuit) (cm' : CMap)
    (h : compileOne bc backend basis il seed c cm = .ok (j, c', cm')) :
    cm' = normalizeCm c cm := by
  rw [compileOne] at h
  simp only [bind, Except.bind] at h
  cases hs : bc.simulator with
  | true =>
      rw [hs] at h
      simp only [if_true] at h
      cases hcc : compile_circuit c basis (normalizeCm c cm) il with
      | error e => rw [hcc] at h; simp at h
      | ok v =>
          rw [hcc] at h
          simp only [Except.ok.injEq, Prod.mk.injEq] at h
          exact h.2.2.symm
  | false =>
      rw [hs] at h
      simp only [Bool.false_eq_true, if_false] at h
      cases hbar : barrierBeforeMeasure backend c with
      | error e => rw [hbar] at h; simp at h
      | ok cb =>
          rw [hbar] at h
          simp only [] at h
          cases hcc : compile_circuit cb basis (normalizeCm c cm) il with
          | error e => rw [hcc] at h; simp at h
          | ok v =>
              rw [hcc] at h
              simp only [Except.ok.injEq, Prod.mk.injEq] at h
              exact h.2.2.symm

/-- A successful loop emits exactly one job per input circuit and returns exactly
one circuit state per input circuit. -/
theorem compileLoop_ok_length (bc : BackendConf) (backend : String)
    (basis : Option String) (il : Option Layout) (seed : Option Int) :
    ∀ (circuits : List Circuit) (cm : CMap) (jobs : List Job) (cs : List Circuit),
      compileLoop bc backend basis il seed circuits cm = .ok (jobs, cs) →
      jobs.length = circuits.length ∧ cs.length = circuits.length := by
  intro circuits
  induction circuits with
  | nil =>
      intro cm jobs cs h
      rw [compileLoop] at h
      simp only [Except.ok.injEq, Prod.mk.injEq] at h
      obtain ⟨h1, h2⟩ := h
      simp [← h1, ← h2]
  | cons c rest ih =>
      intro cm jobs cs h
      rw [compileLoop] at h
      simp only [bind, Except.bind] at h
      cases hone : compileOne bc backend basis il seed c cm with
      | error e => rw [hone] at h; simp at h
      | ok t =>
          obtain ⟨j, c', cm'⟩ := t
          rw [hone] at h
          simp only [] at h
          cases hrest : compileLoop bc backend basis il seed rest cm' with
          | error e => rw [hrest] at h; simp at h
          | ok p =>
              obtain ⟨jobs', cs'⟩ := p
              rw [hrest] at h
              simp only [Except.ok.injEq, Prod.mk.injEq] at h
              obtain ⟨h1, h2⟩ := h
              obtain ⟨ih1, ih2⟩ := ih cm' jobs' cs' hrest
              constructor
              · rw [← h1]; simp [ih1]
              · rw [← h2]; simp [ih2]

/-- If any circuit of the batch fails under the coupling-map state its iteration
actually sees, the whole loop returns an error. -/
theorem compileLoop_error_of_failure (bc : BackendConf) (backend : String)
    (basis : Option String) (il : Option Layout) (seed : Option Int) :
    ∀ (circuits : List Circuit) (cm : CMap) (k : Nat) (c : Circuit),
      circuits[k]? = Option.some c →
      (compileOne bc backend basis il seed c (cmState circuits cm k)).isOk = false →
      ∃ e, compileLoop bc backend basis il seed circuits cm = .error e := by
  intro circuits
  induction circuits with
  | nil => intro cm k c hk; simp at hk
  | cons c0 rest ih =>
      intro cm k c hk hfail
      cases hone : compileOne bc backend basis il seed c0 cm with
      | error e =>
          refine ⟨e, ?_⟩
          rw [compileLoop]
          simp only [bind, Except.bind]
          rw [hone]
      | ok t =>
          obtain ⟨j, c0', cm'⟩ := t
          have hcm' : cm' = normalizeCm c0 cm :=
            compileOne_ok_cm bc backend basis il seed c0 cm j c0' cm' hone
          cases k with
          | zero =>
              exfalso
              rw [List.getElem?_cons_zero, Option.some.injEq] at hk
              subst hk
              simp only [cmState, List.take_zero, List.foldl_nil] at hfail
              rw [hone] at hfail
              simp [Except.isOk, Except.toBool] at hfail
          | succ k' =>
              rw [List.getElem?_cons_succ] at hk
              have hstate : cmState (c0 :: rest) cm (k' + 1) =
                  cmState rest (normalizeCm c0 cm) k' := by
                rw [cmState, cmState, List.take_succ_cons, List.foldl_cons]
              rw [hstate, ← hcm'] at hfail
              obtain ⟨e, he⟩ := ih cm' k' c hk hfail
              refine ⟨e, ?_⟩
              rw [compileLoop]
              simp only [bind, Except.bind]
              rw [hone]
              simp [he]

/-- **C7.** Batch compilation is fail-fast and atomic in its output: a successful
compile carries exactly one job entry per input circuit, and if any circuit of
the batch fails under the state its iteration sees, `compile` returns an error —
no qobj, so no partial job list, ever reaches the caller. -/
theorem C7_fail_fast :
    (∀ (bc : BackendConf) (fresh : String) (circuits : List Circuit)
       (cfg : CompileConfig) (q : Qobj) (cs : List Circuit),
       compile bc fresh circuits cfg = .ok (q, cs) →
       q.circuits.length = circuits.length ∧ cs.length = circuits.length) ∧
    (∀ (bc : BackendConf) (fresh : String) (circuits : List Circuit)
       (cfg : CompileConfig) (k : Nat) (c : Circuit),
       circuits[k]? = Option.some c →
       (compileOne bc cfg.backend
         (resolveBasisGates cfg.basis_gates bc.basis_gates) cfg.initial_layout
         cfg.seed c
         (cmState circuits (resolveCouplingMap cfg.coupling_map bc.coupling_map)
           k)).isOk = false →
       ∃ e, compile bc fresh circuits cfg = .error e) := by
  constructor
  · intro bc fresh circuits cfg q cs hok
    rw [compile] at hok
    simp only [bind, Except.bind] at hok
    cases hh : hpcConfig cfg.backend cfg.hpc with
    | error e => rw [hh] at hok; simp at hok
    | ok hv =>
        rw [hh] at hok
        simp only [] at hok
        cases hloop : compileLoop bc cfg.backend
            (resolveBasisGates cfg.basis_gates bc.basis_gates) cfg.initial_layout
            cfg.seed circuits
            (resolveCouplingMap cfg.coupling_map bc.coupling_map) with
        | error e => rw [hloop] at hok; simp at hok
        | ok p =>
            obtain ⟨jobs, cs'⟩ := p
            rw [hloop] at hok
            simp only [Except.ok.injEq, Prod.mk.injEq] at hok
            obtain ⟨hq, hcs⟩ := hok
            obtain ⟨l1, l2⟩ := compileLoop_ok_length bc cfg.backend
              (resolveBasisGates cfg.basis_gates bc.basis_gates) cfg.initial_layout
              cfg.seed circuits
              (resolveCouplingMap cfg.coupling_map bc.coupling_map) jobs cs' hloop
            constructor
            · rw [← hq]; exact l1
            · rw [← hcs]; exact l2
  · intro bc fresh circuits cfg k c hk hfail
    cases hh : hpcConfig cfg.backend cfg.hpc with
    | error e =>
        refine ⟨e, ?_⟩
        rw [compile]
        simp only [bind, Except.bind]
        rw [hh]
    | ok hv =>
        obtain ⟨e, he⟩ := compileLoop_error_of_failure bc cfg.backend
          (resolveBasisGates cfg.basis_gates bc.basis_gates) cfg.initial_layout
          cfg.seed circuits
          (resolveCouplingMap cfg.coupling_map bc.coupling_map) k c hk hfail
        refine ⟨e, ?_⟩
        rw [compile]
        simp only [bind, Except.bind]
        rw [hh]
        simp [he]

/-- Witness for C7: a concrete successful compile has one job for its one
circuit, and a concrete batch whose only circuit trips the measurement check
yields an error and no qobj. -/
theorem C7_fail_fast_witness :
    ((1 : Nat) = 1 ∧ (1 : Nat) = 1) ∧
    (∃ e, compile bcHardware "jid" [gateAfterMeasQ0] cfgHardware = .error e) := by
  constructor
  · exact C7_fail_fast.1 bcSimulator "jid" [bellCircuit]
      { compile_config_default with backend := "local_qasm_simulator" } _ _ rfl
  · exact C7_fail_fast.2 bcHardware "jid" [gateAfterMeasQ0] cfgHardware 0
      gateAfterMeasQ0 rfl rfl

end Qiskit
